import Mathlib

/-!
Shallow embedding of the submission controller of this repository: the React hook
`useFormSubmission` (file `src/hooks/useFormSubmission.js`), its error classifier
`isRetryable`, its `submit` / `reset` operations, and the form-level `handleSubmit`
of `src/components/TransactionForm.js`.

The hook's mutable React state (`status`, `retryCount`, `error`, `result`) together with
the `inFlightRef` guard flag become an explicit `HookState` record. The `async` attempt
loop becomes a pure recursive function threading that record; since the JavaScript runtime
is single-threaded and the loop only suspends at its two `await` points (the inter-retry
sleep and the injected submit operation), the states at those suspension points — the only
moments at which another call could interleave — are collected in a `trace` list.
The injected endpoint is modelled as a function from the payload and the attempt index to
an `Except` outcome, covering every endpoint behaviour; the arguments passed to it at each
invocation are collected in an `args` list.
-/

namespace FormSubmission

variable {π α : Type}

/-- A JavaScript primitive value, as far as the error classifier can observe one:
the classifier compares `err.status === 503`, a strict equality that distinguishes
numbers from strings and booleans. -/
inductive JsPrim where
  | num (n : Int)
  | str (s : String)
  | boolVal (b : Bool)
deriving DecidableEq, Repr

/-- A JavaScript error value as observed by the hook: `null`, `undefined`, a bare
primitive, or an object with an optional `status` field and an optional `message`
field (the only fields the code reads). -/
inductive JsError where
  | nullErr
  | undefinedErr
  | prim (p : JsPrim)
  | obj (status : Option JsPrim) (message : Option String)
deriving DecidableEq, Repr

/-- `isRetryable(err)` from `useFormSubmission.js`:
`err && typeof err === 'object' && err.status === 503`.
Truthy (`err &&`) rules out `null` and `undefined`; `typeof err === 'object'` rules out
bare primitives; `err.status === 503` demands a `status` field strictly equal to the
number 503. -/
def isRetryable : JsError → Bool
  | .obj (some (.num 503)) _ => true
  | _ => false

/-- The `SubmissionStatus` frozen enum of `useFormSubmission.js`. -/
inductive SubmissionStatus where
  | IDLE
  | PENDING
  | RETRYING
  | SUCCESS
  | ERROR
deriving DecidableEq, Repr

/-- The hook's observable state plus its `inFlightRef` guard flag. `α` is the type of
the success value returned by the injected submit operation (opaque to the hook). -/
structure HookState (α : Type) where
  inFlight : Bool
  status : SubmissionStatus
  retryCount : Nat
  error : Option JsError
  result : Option α
deriving DecidableEq, Repr

/-- The state at hook construction: guard free, `IDLE`, zero retries, no error,
no result. -/
def initialState (α : Type) : HookState α :=
  { inFlight := false, status := .IDLE, retryCount := 0, error := none, result := none }

/-- Everything one run of the attempt loop produces: the final state, the value the
`async` function settles with (`Except.ok` = resolved, `Except.error` = rejected via
`throw err`), the states at the loop's suspension points in order, and the argument
passed to the injected submit operation at each of its invocations in order. -/
structure LoopOut (π α : Type) where
  fin : HookState α
  outcome : Except JsError α
  trace : List (HookState α)
  args : List π
deriving Repr

/-- The `if (attempt > 0)` prelude of each loop iteration in `submit`: on a retry
(attempt > 0) set status `RETRYING` and `retryCount := attempt`, then sleep for
`retryDelayMs`; on the initial attempt leave the state untouched. The sleep itself
carries no state. -/
def retryPrelude (attempt : Nat) (s : HookState α) : HookState α :=
  if 0 < attempt then { s with status := .RETRYING, retryCount := attempt } else s

/-- The `for (let attempt = 0; attempt <= maxRetries; attempt += 1)` body of `submit`:
run the retry prelude; invoke the operation with the cycle's payload; on resolution
record the result, set `SUCCESS`, and return it; on rejection, if the error is
retryable and `attempt < maxRetries`, continue with the next attempt, otherwise record
the error, set `ERROR`, and re-throw. The `finally { inFlightRef.current = false }`
release is folded into the two loop exits. `op p i` is the settled outcome of the
operation's `i`-th invocation (0-indexed) when passed payload `p`. -/
def attemptLoop (op : π → Nat → Except JsError α) (p : π) (maxRetries : Nat)
    (attempt : Nat) (s : HookState α) : LoopOut π α :=
  let s1 := retryPrelude attempt s
  match op p attempt with
  | .ok r =>
      { fin := { s1 with result := some r, status := .SUCCESS, inFlight := false },
        outcome := .ok r, trace := [s1], args := [p] }
  | .error e =>
      if h : isRetryable e = true ∧ attempt < maxRetries then
        let rest := attemptLoop op p maxRetries (attempt + 1) s1
        { rest with trace := s1 :: rest.trace, args := p :: rest.args }
      else
        { fin := { s1 with error := some e, status := .ERROR, inFlight := false },
          outcome := .error e, trace := [s1], args := [p] }
termination_by maxRetries - attempt
decreasing_by omega

/-- What one `submit(payload)` call produces. `outcome = none` models the `async`
function returning `undefined` immediately (a promise fulfilled with no value — the
guard-dropped duplicate); `outcome = some o` models an accepted cycle settling with
`o`. `trace` and `args` are as in `LoopOut` (both empty for a dropped call). -/
structure SubmitOut (π α : Type) where
  fin : HookState α
  outcome : Option (Except JsError α)
  trace : List (HookState α)
  args : List π
deriving Repr

/-- The state right after `submit` accepts a call, before attempt 0: the guard is set
(`inFlightRef.current = true`), `error`/`result` are cleared, `retryCount` is reset to
0 and the status is `PENDING` — independent of the previous state. -/
def pendingInit (α : Type) : HookState α :=
  { inFlight := true, status := .PENDING, retryCount := 0, error := none, result := none }

/-- Repackage an accepted cycle's run as a `submit` observation: the cycle settled,
so the call's outcome is `some` of the loop's outcome. -/
def acceptedOut (o : LoopOut π α) : SubmitOut π α :=
  { fin := o.fin, outcome := some o.outcome, trace := o.trace, args := o.args }

/-- `submit(payload)` from `useFormSubmission.js`: if `inFlightRef.current`, return
immediately; otherwise set the guard, clear `error`/`result`, reset `retryCount` to 0,
set status `PENDING`, and run the attempt loop from attempt 0. -/
def submit (op : π → Nat → Except JsError α) (maxRetries : Nat) (p : π)
    (s : HookState α) : SubmitOut π α :=
  if s.inFlight then
    { fin := s, outcome := none, trace := [], args := [] }
  else
    acceptedOut (attemptLoop op p maxRetries 0 (pendingInit α))

/-- `reset()` from `useFormSubmission.js`: if `inFlightRef.current`, return immediately;
otherwise set status `IDLE` and clear `retryCount`, `error`, `result`. It never touches
the injected endpoint (its type does not even mention `op`). -/
def reset (s : HookState α) : HookState α :=
  if s.inFlight then s
  else { s with status := .IDLE, retryCount := 0, error := none, result := none }

/-- The payload `handleSubmit` builds in `TransactionForm.js`: the two form fields plus
the client-side idempotency key. The amount is carried as the raw input string (the
`Number(amount)` conversion is irrelevant to the control flow modelled here). -/
structure TxPayload where
  email : String
  amount : String
  idempotencyKey : String
deriving DecidableEq, Repr

/-- `handleSubmit` from `TransactionForm.js`: if either field is empty (falsy), return
without submitting; otherwise generate an idempotency key and call `submit` with the
payload carrying it. `freshKey` stands for the value `crypto.randomUUID()` returned at
this call. -/
def handleSubmit (freshKey : String) (email : String) (amount : String)
    (op : TxPayload → Nat → Except JsError α) (maxRetries : Nat)
    (s : HookState α) : SubmitOut TxPayload α :=
  if email = "" ∨ amount = "" then
    { fin := s, outcome := none, trace := [], args := [] }
  else
    submit op maxRetries { email := email, amount := amount, idempotencyKey := freshKey } s

/-- The states of one controller reachable from construction by any sequence of
`reset()` and `submit()` calls, with any endpoint behaviour, any `maxRetries`
configuration and any payload — including every state observable at a suspension
point in the middle of an accepted cycle. -/
inductive Reachable (π : Type) {α : Type} : HookState α → Prop where
  | init : Reachable π (initialState α)
  | rst {s : HookState α} : Reachable π s → Reachable π (reset s)
  | subFin {s : HookState α} (op : π → Nat → Except JsError α) (m : Nat) (p : π) :
      Reachable π s → Reachable π (submit op m p s).fin
  | subMid {s t : HookState α} (op : π → Nat → Except JsError α) (m : Nat) (p : π) :
      Reachable π s → t ∈ (submit op m p s).trace → Reachable π t

/-! ### Basic facts about the retry prelude -/

@[simp] theorem retryPrelude_inFlight (a : Nat) (s : HookState α) :
    (retryPrelude a s).inFlight = s.inFlight := by
  unfold retryPrelude; split <;> rfl

@[simp] theorem retryPrelude_error (a : Nat) (s : HookState α) :
    (retryPrelude a s).error = s.error := by
  unfold retryPrelude; split <;> rfl

@[simp] theorem retryPrelude_result (a : Nat) (s : HookState α) :
    (retryPrelude a s).result = s.result := by
  unfold retryPrelude; split <;> rfl

theorem retryPrelude_retryCount_le {a m : Nat} {s : HookState α}
    (ha : a ≤ m) (hs : s.retryCount ≤ m) : (retryPrelude a s).retryCount ≤ m := by
  unfold retryPrelude
  split
  · exact ha
  · exact hs

@[simp] theorem acceptedOut_fin (o : LoopOut π α) : (acceptedOut o).fin = o.fin := rfl

@[simp] theorem acceptedOut_outcome (o : LoopOut π α) :
    (acceptedOut o).outcome = some o.outcome := rfl

@[simp] theorem acceptedOut_trace (o : LoopOut π α) : (acceptedOut o).trace = o.trace := rfl

@[simp] theorem acceptedOut_args (o : LoopOut π α) : (acceptedOut o).args = o.args := rfl

@[simp] theorem pendingInit_inFlight : (pendingInit α).inFlight = true := rfl

@[simp] theorem pendingInit_retryCount : (pendingInit α).retryCount = 0 := rfl

@[simp] theorem pendingInit_error : (pendingInit α).error = none := rfl

@[simp] theorem pendingInit_result : (pendingInit α).result = none := rfl

/-! ### Facts about one run of the attempt loop, each proved by induction on the
remaining retry budget. -/

/-- Every invocation of the injected operation during one cycle receives exactly the
cycle's payload. -/
theorem loop_args_eq (op : π → Nat → Except JsError α) (p : π) (m a : Nat)
    (s : HookState α) : ∀ q ∈ (attemptLoop op p m a s).args, q = p := by
  have key : ∀ (n a : Nat) (s : HookState α), m - a ≤ n →
      ∀ q ∈ (attemptLoop op p m a s).args, q = p := by
    intro n
    induction n with
    | zero =>
      intro a s hn
      rw [attemptLoop]
      cases hop : op p a with
      | ok r =>
        simp only [hop]
        simp
      | error e =>
        simp only [hop]
        rw [dif_neg (fun hc => absurd hc.2 (by omega))]
        simp
    | succ n ih =>
      intro a s hn
      rw [attemptLoop]
      cases hop : op p a with
      | ok r =>
        simp only [hop]
        simp
      | error e =>
        simp only [hop]
        by_cases hc : isRetryable e = true ∧ a < m
        · rw [dif_pos hc]
          simp only [List.mem_cons]
          rintro q (rfl | hq)
          · rfl
          · exact ih (a + 1) (retryPrelude a s) (by omega) q hq
        · rw [dif_neg hc]
          simp
  exact key (m - a) a s le_rfl

/-- The guard flag stays set at every suspension point of a cycle started with the
flag set. -/
theorem loop_trace_inFlight (op : π → Nat → Except JsError α) (p : π) (m a : Nat)
    (s : HookState α) (hs : s.inFlight = true) :
    ∀ t ∈ (attemptLoop op p m a s).trace, t.inFlight = true := by
  have key : ∀ (n a : Nat) (s : HookState α), m - a ≤ n → s.inFlight = true →
      ∀ t ∈ (attemptLoop op p m a s).trace, t.inFlight = true := by
    intro n
    induction n with
    | zero =>
      intro a s hn hs
      rw [attemptLoop]
      cases hop : op p a with
      | ok r =>
        simp only [hop]
        simp [hs]
      | error e =>
        simp only [hop]
        rw [dif_neg (fun hc => absurd hc.2 (by omega))]
        simp [hs]
    | succ n ih =>
      intro a s hn hs
      rw [attemptLoop]
      cases hop : op p a with
      | ok r =>
        simp only [hop]
        simp [hs]
      | error e =>
        simp only [hop]
        by_cases hc : isRetryable e = true ∧ a < m
        · rw [dif_pos hc]
          simp only [List.mem_cons]
          rintro t (rfl | ht)
          · simp [hs]
          · exact ih (a + 1) (retryPrelude a s) (by omega) (by simp [hs]) t ht
        · rw [dif_neg hc]
          simp [hs]
  exact key (m - a) a s le_rfl hs

/-- The guard flag is released on every loop exit (the `finally` of `submit`). -/
theorem loop_fin_inFlight (op : π → Nat → Except JsError α) (p : π) (m a : Nat)
    (s : HookState α) : (attemptLoop op p m a s).fin.inFlight = false := by
  have key : ∀ (n a : Nat) (s : HookState α), m - a ≤ n →
      (attemptLoop op p m a s).fin.inFlight = false := by
    intro n
    induction n with
    | zero =>
      intro a s hn
      rw [attemptLoop]
      cases hop : op p a with
      | ok r => simp only [hop]
      | error e =>
        simp only [hop]
        rw [dif_neg (fun hc => absurd hc.2 (by omega))]
    | succ n ih =>
      intro a s hn
      rw [attemptLoop]
      cases hop : op p a with
      | ok r => simp only [hop]
      | error e =>
        simp only [hop]
        by_cases hc : isRetryable e = true ∧ a < m
        · rw [dif_pos hc]
          exact ih (a + 1) (retryPrelude a s) (by omega)
        · rw [dif_neg hc]
  exact key (m - a) a s le_rfl

/-- One cycle invokes the operation at most once per attempt index still in budget. -/
theorem loop_args_length_le (op : π → Nat → Except JsError α) (p : π) (m a : Nat)
    (s : HookState α) (ha : a ≤ m) :
    (attemptLoop op p m a s).args.length ≤ m + 1 - a := by
  have key : ∀ (n a : Nat) (s : HookState α), m - a ≤ n → a ≤ m →
      (attemptLoop op p m a s).args.length ≤ m + 1 - a := by
    intro n
    induction n with
    | zero =>
      intro a s hn ha
      rw [attemptLoop]
      cases hop : op p a with
      | ok r =>
        simp only [hop]
        simp
        omega
      | error e =>
        simp only [hop]
        rw [dif_neg (fun hc => absurd hc.2 (by omega))]
        simp
        omega
    | succ n ih =>
      intro a s hn ha
      rw [attemptLoop]
      cases hop : op p a with
      | ok r =>
        simp only [hop]
        simp
        omega
      | error e =>
        simp only [hop]
        by_cases hc : isRetryable e = true ∧ a < m
        · rw [dif_pos hc]
          have := ih (a + 1) (retryPrelude a s) (by omega) (by omega)
          simp only [List.length_cons]
          omega
        · rw [dif_neg hc]
          simp
          omega
  exact key (m - a) a s le_rfl ha

/-- The exposed retry counter never exceeds the configured maximum, at any suspension
point or at the end of the cycle. -/
theorem loop_retryCount_le (op : π → Nat → Except JsError α) (p : π) (m a : Nat)
    (s : HookState α) (ha : a ≤ m) (hs : s.retryCount ≤ m) :
    (∀ t ∈ (attemptLoop op p m a s).trace, t.retryCount ≤ m) ∧
      (attemptLoop op p m a s).fin.retryCount ≤ m := by
  have key : ∀ (n a : Nat) (s : HookState α), m - a ≤ n → a ≤ m → s.retryCount ≤ m →
      (∀ t ∈ (attemptLoop op p m a s).trace, t.retryCount ≤ m) ∧
        (attemptLoop op p m a s).fin.retryCount ≤ m := by
    intro n
    induction n with
    | zero =>
      intro a s hn ha hs
      rw [attemptLoop]
      cases hop : op p a with
      | ok r =>
        simp only [hop]
        simpa using retryPrelude_retryCount_le ha hs
      | error e =>
        simp only [hop]
        rw [dif_neg (fun hc => absurd hc.2 (by omega))]
        simpa using retryPrelude_retryCount_le ha hs
    | succ n ih =>
      intro a s hn ha hs
      rw [attemptLoop]
      cases hop : op p a with
      | ok r =>
        simp only [hop]
        simpa using retryPrelude_retryCount_le ha hs
      | error e =>
        simp only [hop]
        by_cases hc : isRetryable e = true ∧ a < m
        · rw [dif_pos hc]
          have hpre := retryPrelude_retryCount_le ha hs
          have := ih (a + 1) (retryPrelude a s) (by omega) (by omega) hpre
          simp only [List.mem_cons]
          refine ⟨?_, this.2⟩
          rintro t (rfl | ht)
          · exact hpre
          · exact this.1 t ht
        · rw [dif_neg hc]
          simpa using retryPrelude_retryCount_le ha hs
  exact key (m - a) a s le_rfl ha hs

/-- A cycle started with both transient fields clear keeps them clear at every
suspension point, and ends either with an error recorded under status `ERROR` and the
same error rejected, or with a result recorded under status `SUCCESS` and the same
result resolved — never both fields set. -/
theorem loop_error_result (op : π → Nat → Except JsError α) (p : π) (m a : Nat)
    (s : HookState α) (he : s.error = none) (hr : s.result = none) :
    (∀ t ∈ (attemptLoop op p m a s).trace, t.error = none ∧ t.result = none) ∧
      ((∃ e, (attemptLoop op p m a s).fin.error = some e ∧
          (attemptLoop op p m a s).fin.result = none ∧
          (attemptLoop op p m a s).fin.status = .ERROR ∧
          (attemptLoop op p m a s).outcome = .error e) ∨
        (∃ r, (attemptLoop op p m a s).fin.result = some r ∧
          (attemptLoop op p m a s).fin.error = none ∧
          (attemptLoop op p m a s).fin.status = .SUCCESS ∧
          (attemptLoop op p m a s).outcome = .ok r)) := by
  have key : ∀ (n a : Nat) (s : HookState α), m - a ≤ n → s.error = none → s.result = none →
      (∀ t ∈ (attemptLoop op p m a s).trace, t.error = none ∧ t.result = none) ∧
        ((∃ e, (attemptLoop op p m a s).fin.error = some e ∧
            (attemptLoop op p m a s).fin.result = none ∧
            (attemptLoop op p m a s).fin.status = .ERROR ∧
            (attemptLoop op p m a s).outcome = .error e) ∨
          (∃ r, (attemptLoop op p m a s).fin.result = some r ∧
            (attemptLoop op p m a s).fin.error = none ∧
            (attemptLoop op p m a s).fin.status = .SUCCESS ∧
            (attemptLoop op p m a s).outcome = .ok r)) := by
    intro n
    induction n with
    | zero =>
      intro a s hn he hr
      rw [attemptLoop]
      cases hop : op p a with
      | ok r =>
        simp only [hop]
        exact ⟨by simp [he, hr], Or.inr ⟨r, by simp [he]⟩⟩
      | error e =>
        simp only [hop]
        rw [dif_neg (fun hc => absurd hc.2 (by omega))]
        exact ⟨by simp [he, hr], Or.inl ⟨e, by simp [hr]⟩⟩
    | succ n ih =>
      intro a s hn he hr
      rw [attemptLoop]
      cases hop : op p a with
      | ok r =>
        simp only [hop]
        exact ⟨by simp [he, hr], Or.inr ⟨r, by simp [he]⟩⟩
      | error e =>
        simp only [hop]
        by_cases hc : isRetryable e = true ∧ a < m
        · rw [dif_pos hc]
          have := ih (a + 1) (retryPrelude a s) (by omega) (by simp [he]) (by simp [hr])
          simp only [List.mem_cons]
          refine ⟨?_, this.2⟩
          rintro t (rfl | ht)
          · simp [he, hr]
          · exact this.1 t ht
        · rw [dif_neg hc]
          exact ⟨by simp [he, hr], Or.inl ⟨e, by simp [hr]⟩⟩
  exact key (m - a) a s le_rfl he hr

/-- If the cycle rejects with an error, that same error was recorded as the last error
under status `ERROR` before the rejection. -/
theorem loop_outcome_error (op : π → Nat → Except JsError α) (p : π) (m a : Nat)
    (s : HookState α) (e : JsError) (hout : (attemptLoop op p m a s).outcome = .error e) :
    (attemptLoop op p m a s).fin.error = some e ∧
      (attemptLoop op p m a s).fin.status = .ERROR := by
  have key : ∀ (n a : Nat) (s : HookState α), m - a ≤ n →
      (attemptLoop op p m a s).outcome = .error e →
      (attemptLoop op p m a s).fin.error = some e ∧
        (attemptLoop op p m a s).fin.status = .ERROR := by
    intro n
    induction n with
    | zero =>
      intro a s hn hout
      rw [attemptLoop] at hout ⊢
      cases hop : op p a with
      | ok r =>
        simp only [hop] at hout
        exact absurd hout (by simp)
      | error e0 =>
        simp only [hop] at hout ⊢
        rw [dif_neg (fun hc => absurd hc.2 (by omega))] at hout ⊢
        simp at hout
        simp [hout]
    | succ n ih =>
      intro a s hn hout
      rw [attemptLoop] at hout ⊢
      cases hop : op p a with
      | ok r =>
        simp only [hop] at hout
        exact absurd hout (by simp)
      | error e0 =>
        simp only [hop] at hout ⊢
        by_cases hc : isRetryable e0 = true ∧ a < m
        · rw [dif_pos hc] at hout ⊢
          exact ih (a + 1) (retryPrelude a s) (by omega) hout
        · rw [dif_neg hc] at hout ⊢
          simp at hout
          simp [hout]
  exact key (m - a) a s le_rfl hout

/-- A run in which the operation fails retryably on the `k` attempts starting at `a`
and then resolves with `v`, with budget remaining, performs exactly `k + 1`
invocations and ends in `SUCCESS` with the result recorded and the error field
untouched. -/
theorem loop_success_run (op : π → Nat → Except JsError α) (p : π) (m : Nat) (v : α) :
    ∀ (k a : Nat) (s : HookState α),
      (∀ i, a ≤ i → i < a + k → ∃ e, op p i = .error e ∧ isRetryable e = true) →
      op p (a + k) = .ok v → a + k ≤ m →
      (attemptLoop op p m a s).args.length = k + 1 ∧
        (attemptLoop op p m a s).fin.status = .SUCCESS ∧
        (attemptLoop op p m a s).fin.result = some v ∧
        (attemptLoop op p m a s).fin.error = s.error := by
  intro k
  induction k with
  | zero =>
    intro a s hf hok hle
    simp only [Nat.add_zero] at hok
    rw [attemptLoop]
    simp only [hok]
    simp
  | succ k ih =>
    intro a s hf hok hle
    obtain ⟨e, he, hre⟩ := hf a le_rfl (by omega)
    rw [attemptLoop]
    simp only [he]
    rw [dif_pos ⟨hre, by omega⟩]
    have heq : a + 1 + k = a + (k + 1) := by omega
    have := ih (a + 1) (retryPrelude a s)
      (fun i h1 h2 => hf i (by omega) (by omega))
      (by rw [heq]; exact hok) (by omega)
    simp only [List.length_cons]
    refine ⟨by omega, this.2.1, this.2.2.1, ?_⟩
    rw [this.2.2.2]
    simp

/-- A run in which the operation fails retryably on every attempt performs one
invocation per remaining attempt index and ends in `ERROR` with the final attempt's
error recorded. -/
theorem loop_exhaust (op : π → Nat → Except JsError α) (p : π) (m : Nat)
    (err : Nat → JsError) (hop : ∀ i, op p i = .error (err i))
    (hre : ∀ i, isRetryable (err i) = true) :
    ∀ (a : Nat) (s : HookState α), a ≤ m →
      (attemptLoop op p m a s).args.length = m + 1 - a ∧
        (attemptLoop op p m a s).fin.status = .ERROR ∧
        (attemptLoop op p m a s).fin.error = some (err m) ∧
        (attemptLoop op p m a s).outcome = .error (err m) := by
  have key : ∀ (n a : Nat) (s : HookState α), m - a ≤ n → a ≤ m →
      (attemptLoop op p m a s).args.length = m + 1 - a ∧
        (attemptLoop op p m a s).fin.status = .ERROR ∧
        (attemptLoop op p m a s).fin.error = some (err m) ∧
        (attemptLoop op p m a s).outcome = .error (err m) := by
    intro n
    induction n with
    | zero =>
      intro a s hn ha
      have ham : a = m := by omega
      subst ham
      rw [attemptLoop]
      simp only [hop a]
      rw [dif_neg (fun hc => absurd hc.2 (by omega))]
      simp
    | succ n ih =>
      intro a s hn ha
      by_cases ham : a = m
      · subst ham
        rw [attemptLoop]
        simp only [hop a]
        rw [dif_neg (fun hc => absurd hc.2 (by omega))]
        simp
      · rw [attemptLoop]
        simp only [hop a]
        rw [dif_pos ⟨hre a, by omega⟩]
        have := ih (a + 1) (retryPrelude a s) (by omega) (by omega)
        simp only [List.length_cons]
        exact ⟨by omega, this.2.1, this.2.2.1, this.2.2.2⟩
  intro a s ha
  exact key (m - a) a s le_rfl ha

/-! ### Facts at the level of one `submit` call -/

/-- Every invocation issued by one `submit` call receives exactly the submitted
payload (hence the identical idempotency token it carries). -/
theorem submit_args_eq (op : π → Nat → Except JsError α) (m : Nat) (p : π)
    (s : HookState α) : ∀ q ∈ (submit op m p s).args, q = p := by
  intro q hq
  rw [submit] at hq
  by_cases h : s.inFlight = true
  · rw [if_pos h] at hq
    simp at hq
  · rw [if_neg h] at hq
    rw [acceptedOut_args] at hq
    exact loop_args_eq op p m 0 (pendingInit α) q hq

/-- In every reachable state, a recorded error forces status `ERROR` with no result,
and a recorded result forces status `SUCCESS`. -/
theorem reachable_inv {π : Type} {s : HookState α} (h : Reachable π s) :
    (∀ e, s.error = some e → s.status = .ERROR ∧ s.result = none) ∧
      (∀ r, s.result = some r → s.status = .SUCCESS) := by
  induction h with
  | init =>
    constructor
    · intro e he
      simp [initialState] at he
    · intro r hr
      simp [initialState] at hr
  | rst h ih =>
    unfold reset
    split
    · exact ih
    · constructor
      · intro e he
        simp at he
      · intro r hr
        simp at hr
  | subFin op m p h ih =>
    rw [submit]
    split
    · exact ih
    · rw [acceptedOut_fin]
      rcases (loop_error_result op p m 0 (pendingInit α) rfl rfl).2 with
        ⟨e0, he0, hr0, hst0, -⟩ | ⟨r0, hr0, he0, hst0, -⟩
      · constructor
        · intro e he
          exact ⟨hst0, hr0⟩
        · intro r hr
          rw [hr0] at hr
          cases hr
      · constructor
        · intro e he
          rw [he0] at he
          cases he
        · intro r hr
          exact hst0
  | subMid op m p h hmem ih =>
    rw [submit] at hmem
    split at hmem
    · simp at hmem
    · rw [acceptedOut_trace] at hmem
      have hclear := (loop_error_result op p m 0 (pendingInit α) rfl rfl).1 _ hmem
      constructor
      · intro e he
        rw [hclear.1] at he
        cases he
      · intro r hr
        rw [hclear.2] at hr
        cases hr

/-! ### The claims -/

/-- Claim C1 (single-flight guard): a `submit()` call made while a submission is in
flight (guard set) is a silent no-op returning immediately: the observation is exactly
`⟨s, none, [], []⟩` — state unchanged, no outcome signalled, no suspension reached,
no invocation of the injected operation. Moreover the guard flag stays set at every
suspension point of an accepted cycle — the only moments at which another `submit()`
could interleave — so every overlapping call is such a no-op and at most one attempt
cycle is ever active. -/
theorem single_flight_guard (op : π → Nat → Except JsError α) (m : Nat) (p : π)
    (s : HookState α) :
    (s.inFlight = true →
      submit op m p s = { fin := s, outcome := none, trace := [], args := [] }) ∧
    (∀ t ∈ (submit op m p s).trace, t.inFlight = true) := by
  constructor
  · intro h
    rw [submit, if_pos h]
  · intro t ht
    rw [submit] at ht
    split at ht
    · simp at ht
    · rw [acceptedOut_trace] at ht
      exact loop_trace_inFlight op p m 0 (pendingInit α) rfl t ht

/-- Witness for `single_flight_guard`: a concrete in-flight state whose duplicate
`submit` is dropped unchanged. -/
theorem single_flight_guard_witness :
    ({ inFlight := true, status := .PENDING, retryCount := 0, error := none,
       result := none } : HookState Nat).inFlight = true ∧
      submit (fun (_ : Nat) _ => Except.ok 1) 3 0
          ({ inFlight := true, status := .PENDING, retryCount := 0, error := none,
             result := none } : HookState Nat) =
        { fin := { inFlight := true, status := .PENDING, retryCount := 0, error := none,
                   result := none },
          outcome := none, trace := [], args := [] } :=
  ⟨rfl, (single_flight_guard (fun (_ : Nat) _ => Except.ok 1) 3 0
    { inFlight := true, status := .PENDING, retryCount := 0, error := none,
      result := none }).1 rfl⟩

/-- Claim C2 (retry bound): an accepted submission with `maxRetries = m` invokes the
injected operation at most `m + 1` times, and the exposed retry counter never exceeds
`m` — neither at any suspension point during the cycle nor in the final state. -/
theorem retry_bound (op : π → Nat → Except JsError α) (m : Nat) (p : π)
    (s : HookState α) (hs : s.inFlight = false) :
    (submit op m p s).args.length ≤ m + 1 ∧
      (∀ t ∈ (submit op m p s).trace, t.retryCount ≤ m) ∧
      (submit op m p s).fin.retryCount ≤ m := by
  rw [submit, if_neg (by simp [hs])]
  refine ⟨?_, ?_, ?_⟩
  · rw [acceptedOut_args]
    simpa using loop_args_length_le op p m 0 (pendingInit α) (Nat.zero_le m)
  · rw [acceptedOut_trace]
    exact (loop_retryCount_le op p m 0 (pendingInit α) (Nat.zero_le m) (by simp)).1
  · rw [acceptedOut_fin]
    exact (loop_retryCount_le op p m 0 (pendingInit α) (Nat.zero_le m) (by simp)).2

/-- Witness for `retry_bound` at a concrete idle controller and operation. -/
theorem retry_bound_witness :
    (initialState Nat).inFlight = false ∧
      ((submit (fun (_ : Nat) _ => Except.ok 1) 3 0 (initialState Nat)).args.length ≤ 4 ∧
        (∀ t ∈ (submit (fun (_ : Nat) _ => Except.ok 1) 3 0 (initialState Nat)).trace,
          t.retryCount ≤ 3) ∧
        (submit (fun (_ : Nat) _ => Except.ok 1) 3 0 (initialState Nat)).fin.retryCount ≤ 3) :=
  ⟨rfl, retry_bound (fun (_ : Nat) _ => Except.ok 1) 3 0 (initialState Nat) rfl⟩

/-- Claim C3 (eventual success after transient failures): if the operation fails with
a retryable (503-classified) error on exactly its first `k ≤ maxRetries` invocations
and then resolves with `v`, an accepted submission invokes it exactly `k + 1` times
and ends with status `SUCCESS`, the result recorded and no error recorded. -/
theorem eventual_success (op : π → Nat → Except JsError α) (m : Nat) (p : π)
    (s : HookState α) (k : Nat) (v : α) (hs : s.inFlight = false) (hk : k ≤ m)
    (hfail : ∀ i, i < k → ∃ e, op p i = .error e ∧ isRetryable e = true)
    (hok : op p k = .ok v) :
    (submit op m p s).args.length = k + 1 ∧
      (submit op m p s).fin.status = .SUCCESS ∧
      (submit op m p s).fin.result = some v ∧
      (submit op m p s).fin.error = none := by
  rw [submit, if_neg (by simp [hs])]
  have key := loop_success_run op p m v k 0 (pendingInit α)
    (fun i _ h2 => hfail i (by omega)) (by simpa using hok) (by omega)
  simp only [acceptedOut_args, acceptedOut_fin]
  exact ⟨key.1, key.2.1, key.2.2.1, by rw [key.2.2.2]; rfl⟩

/-- Witness for `eventual_success`: one retryable 503 failure, then success with 42,
under `maxRetries = 3`. -/
theorem eventual_success_witness :
    (initialState Nat).inFlight = false ∧ 1 ≤ 3 ∧
      ((submit (fun (_ : Nat) i =>
          if i < 1 then Except.error (JsError.obj (some (JsPrim.num 503)) none)
          else Except.ok 42) 3 0 (initialState Nat)).args.length = 1 + 1 ∧
        (submit (fun (_ : Nat) i =>
          if i < 1 then Except.error (JsError.obj (some (JsPrim.num 503)) none)
          else Except.ok 42) 3 0 (initialState Nat)).fin.status = .SUCCESS ∧
        (submit (fun (_ : Nat) i =>
          if i < 1 then Except.error (JsError.obj (some (JsPrim.num 503)) none)
          else Except.ok 42) 3 0 (initialState Nat)).fin.result = some 42 ∧
        (submit (fun (_ : Nat) i =>
          if i < 1 then Except.error (JsError.obj (some (JsPrim.num 503)) none)
          else Except.ok 42) 3 0 (initialState Nat)).fin.error = none) :=
  ⟨rfl, by omega, eventual_success _ 3 0 (initialState Nat) 1 42 rfl (by omega)
    (by
      intro i hi
      obtain rfl : i = 0 := by omega
      exact ⟨JsError.obj (some (JsPrim.num 503)) none, rfl, rfl⟩)
    rfl⟩

/-- Claim C4 (exhaustion): if the operation fails with a retryable (503-classified)
error on every invocation, an accepted submission with `maxRetries = m` invokes it
exactly `m + 1` times and ends with status `ERROR`, the last error being the one
returned by the final invocation (attempt index `m`), which is also the error the
call rejects with. -/
theorem exhaustion (op : π → Nat → Except JsError α) (m : Nat) (p : π)
    (s : HookState α) (err : Nat → JsError) (hs : s.inFlight = false)
    (hop : ∀ i, op p i = .error (err i)) (hre : ∀ i, isRetryable (err i) = true) :
    (submit op m p s).args.length = m + 1 ∧
      (submit op m p s).fin.status = .ERROR ∧
      (submit op m p s).fin.error = some (err m) ∧
      (submit op m p s).outcome = some (.error (err m)) := by
  rw [submit, if_neg (by simp [hs])]
  have key := loop_exhaust op p m err hop hre 0 (pendingInit α) (Nat.zero_le m)
  simp only [acceptedOut_args, acceptedOut_fin, acceptedOut_outcome]
  exact ⟨by simpa using key.1, key.2.1, key.2.2.1, by rw [key.2.2.2]⟩

/-- Witness for `exhaustion`: a permanently 503-failing operation under
`maxRetries = 2` yields three invocations and a recorded final error. -/
theorem exhaustion_witness :
    (initialState Nat).inFlight = false ∧
      ((submit (fun (_ : Nat) _ =>
          Except.error (JsError.obj (some (JsPrim.num 503)) none)) 2 0
          (initialState Nat)).args.length = 2 + 1 ∧
        (submit (fun (_ : Nat) _ =>
          Except.error (JsError.obj (some (JsPrim.num 503)) none)) 2 0
          (initialState Nat)).fin.status = .ERROR ∧
        (submit (fun (_ : Nat) _ =>
          Except.error (JsError.obj (some (JsPrim.num 503)) none)) 2 0
          (initialState Nat)).fin.error =
            some (JsError.obj (some (JsPrim.num 503)) none) ∧
        (submit (fun (_ : Nat) _ =>
          Except.error (JsError.obj (some (JsPrim.num 503)) none)) 2 0
          (initialState Nat)).outcome =
            some (.error (JsError.obj (some (JsPrim.num 503)) none))) :=
  ⟨rfl, exhaustion _ 2 0 (initialState Nat)
    (fun _ => JsError.obj (some (JsPrim.num 503)) none) rfl (fun _ => rfl) (fun _ => rfl)⟩

/-- Claim C5 (error classification): `isRetryable` deems an error retryable exactly
when it is an object carrying a `status` field strictly equal to the number 503;
every other error shape — other status codes, non-number status values, objects
without a status, bare primitives, `null`, `undefined` — is terminal. Purity is
inherent: `isRetryable` is a total function of the error value alone. -/
theorem error_classification (e : JsError) :
    isRetryable e = true ↔ ∃ msg, e = JsError.obj (some (JsPrim.num 503)) msg := by
  constructor
  · intro h
    rw [isRetryable.eq_def] at h
    split at h
    · exact ⟨_, rfl⟩
    · cases h
  · rintro ⟨msg, rfl⟩
    rfl

/-- Witness for `error_classification`: the canonical 503 object is retryable. -/
theorem error_classification_witness :
    isRetryable (JsError.obj (some (JsPrim.num 503)) (some "Service Temporarily Unavailable")) = true :=
  (error_classification _).mpr ⟨some "Service Temporarily Unavailable", rfl⟩

/-- Claim C6 (terminal failure is retry-proof and propagated): a non-retryable error
on the first attempt of an accepted submission means exactly one invocation, status
`ERROR`, the error recorded, and the same error rejected to the caller; and in
general, whatever error an accepted `submit` call rejects with is exactly the error
recorded as `lastError` under status `ERROR` — the error channel and the polled state
carry the same information. -/
theorem terminal_failure_propagation (op : π → Nat → Except JsError α) (m : Nat)
    (p : π) (s : HookState α) (hs : s.inFlight = false) :
    (∀ e, op p 0 = .error e → isRetryable e = false →
      (submit op m p s).args.length = 1 ∧
        (submit op m p s).fin.status = .ERROR ∧
        (submit op m p s).fin.error = some e ∧
        (submit op m p s).outcome = some (.error e)) ∧
    (∀ e, (submit op m p s).outcome = some (.error e) →
      (submit op m p s).fin.error = some e ∧
        (submit op m p s).fin.status = .ERROR) := by
  rw [submit, if_neg (by simp [hs])]
  constructor
  · intro e hop hre
    rw [attemptLoop]
    simp only [hop]
    rw [dif_neg (fun hc => absurd hc.1 (by simp [hre]))]
    simp
  · intro e hout
    rw [acceptedOut_outcome] at hout
    rw [acceptedOut_fin]
    exact loop_outcome_error op p m 0 (pendingInit α) e (Option.some.inj hout)

/-- Witness for `terminal_failure_propagation`: a 400-classified failure on the first
attempt of an idle controller. -/
theorem terminal_failure_propagation_witness :
    (initialState Nat).inFlight = false ∧
      ((submit (fun (_ : Nat) _ =>
          Except.error (JsError.obj (some (JsPrim.num 400)) none)) 3 0
          (initialState Nat)).args.length = 1 ∧
        (submit (fun (_ : Nat) _ =>
          Except.error (JsError.obj (some (JsPrim.num 400)) none)) 3 0
          (initialState Nat)).fin.status = .ERROR ∧
        (submit (fun (_ : Nat) _ =>
          Except.error (JsError.obj (some (JsPrim.num 400)) none)) 3 0
          (initialState Nat)).fin.error =
            some (JsError.obj (some (JsPrim.num 400)) none) ∧
        (submit (fun (_ : Nat) _ =>
          Except.error (JsError.obj (some (JsPrim.num 400)) none)) 3 0
          (initialState Nat)).outcome =
            some (.error (JsError.obj (some (JsPrim.num 400)) none))) :=
  ⟨rfl, (terminal_failure_propagation _ 3 0 (initialState Nat) rfl).1
    (JsError.obj (some (JsPrim.num 400)) none) rfl rfl⟩

/-- Claim C7 (reset discipline): `reset()` while a submission is in flight changes
nothing; `reset()` while idle or terminal returns the controller to the construction
state — status `IDLE`, retry counter 0, no error, no result. `reset` takes no
endpoint and so cannot touch it. -/
theorem reset_discipline (s : HookState α) :
    (s.inFlight = true → reset s = s) ∧
      (s.inFlight = false → reset s = initialState α) := by
  constructor
  · intro h
    unfold reset
    rw [if_pos h]
  · intro h
    unfold reset
    rw [if_neg (by simp [h])]
    cases s with
    | mk f st rc er rs =>
      simp only at h
      subst h
      rfl

/-- Witness for `reset_discipline`: resetting a terminal `ERROR` state yields the
construction state. -/
theorem reset_discipline_witness :
    ({ inFlight := false, status := .ERROR, retryCount := 2,
       error := some JsError.nullErr, result := none } : HookState Nat).inFlight = false ∧
      reset ({ inFlight := false, status := .ERROR, retryCount := 2,
               error := some JsError.nullErr, result := none } : HookState Nat) =
        initialState Nat :=
  ⟨rfl, (reset_discipline _).2 rfl⟩

/-- Claim C8 (result/error exclusivity): in every state reachable by any sequence of
`submit()` and `reset()` calls with any endpoint behaviour — including every state
observable in the middle of a cycle — `lastError` and `lastResult` are never both
set; an error is recorded only under status `ERROR` and a result only under status
`SUCCESS`; and both fields are clear at the start of, and throughout, every accepted
submission's in-flight window. -/
theorem result_error_exclusive {π : Type} {α : Type} (s : HookState α)
    (h : Reachable π s) :
    (¬(s.error.isSome = true ∧ s.result.isSome = true)) ∧
      (s.error.isSome = true → s.status = .ERROR) ∧
      (s.result.isSome = true → s.status = .SUCCESS) ∧
      (∀ (op : π → Nat → Except JsError α) (m : Nat) (p : π),
        ∀ t ∈ (submit op m p s).trace, t.error = none ∧ t.result = none) := by
  obtain ⟨h1, h2⟩ := reachable_inv h
  refine ⟨?_, ?_, ?_, ?_⟩
  · rintro ⟨he, hr⟩
    obtain ⟨e, hee⟩ := Option.isSome_iff_exists.mp he
    rw [(h1 e hee).2] at hr
    simp at hr
  · intro he
    obtain ⟨e, hee⟩ := Option.isSome_iff_exists.mp he
    exact (h1 e hee).1
  · intro hr
    obtain ⟨r, hrr⟩ := Option.isSome_iff_exists.mp hr
    exact h2 r hrr
  · intro op m p t ht
    rw [submit] at ht
    split at ht
    · simp at ht
    · rw [acceptedOut_trace] at ht
      exact (loop_error_result op p m 0 (pendingInit α) rfl rfl).1 t ht

/-- Witness for `result_error_exclusive` at the reachable construction state. -/
theorem result_error_exclusive_witness :
    Reachable Nat (initialState Nat) ∧
      ¬((initialState Nat).error.isSome = true ∧
        (initialState Nat).result.isSome = true) :=
  ⟨Reachable.init,
    (result_error_exclusive (π := Nat) (initialState Nat) Reachable.init).1⟩

/-- Claim C9 (idempotency token discipline): within one submission cycle, every
invocation of the injected operation receives the identical payload — hence the
identical idempotency token it carries; and two `handleSubmit` calls whose generated
keys differ (as `crypto.randomUUID()` is relied upon to guarantee) submit payloads
whose idempotency tokens differ, so each new logical submission carries a fresh
token. -/
theorem idempotency_token_discipline (op : π → Nat → Except JsError α)
    (opA opB : TxPayload → Nat → Except JsError α) (m mA mB : Nat) (p : π)
    (k1 k2 email amount : String) (s : HookState α) (sA sB : HookState α) :
    (∀ q ∈ (submit op m p s).args, q = p) ∧
      (k1 ≠ k2 →
        ∀ q1 ∈ (handleSubmit k1 email amount opA mA sA).args,
          ∀ q2 ∈ (handleSubmit k2 email amount opB mB sB).args,
            q1.idempotencyKey ≠ q2.idempotencyKey) := by
  constructor
  · exact submit_args_eq op m p s
  · intro hk q1 hq1 q2 hq2
    rw [handleSubmit] at hq1
    rw [handleSubmit] at hq2
    split at hq1
    · simp at hq1
    · split at hq2
      · simp at hq2
      · rw [submit_args_eq opA mA _ sA q1 hq1, submit_args_eq opB mB _ sB q2 hq2]
        exact hk

/-- Witness for `idempotency_token_discipline`: two submissions with distinct
generated keys. -/
theorem idempotency_token_discipline_witness :
    ("key-one" : String) ≠ "key-two" ∧
      (∀ q1 ∈ (handleSubmit "key-one" "a@b.c" "10"
          (fun (_ : TxPayload) _ => Except.ok 1) 3 (initialState Nat)).args,
        ∀ q2 ∈ (handleSubmit "key-two" "a@b.c" "10"
          (fun (_ : TxPayload) _ => Except.ok 1) 3 (initialState Nat)).args,
          q1.idempotencyKey ≠ q2.idempotencyKey) :=
  ⟨by decide, (idempotency_token_discipline
    (fun (_ : TxPayload) _ => Except.ok 1)
    (fun (_ : TxPayload) _ => Except.ok 1)
    (fun (_ : TxPayload) _ => Except.ok 1) 3 3 3
    { email := "a@b.c", amount := "10", idempotencyKey := "key-one" }
    "key-one" "key-two" "a@b.c" "10"
    (initialState Nat) (initialState Nat) (initialState Nat)).2 (by decide)⟩

/-- Claim C10 (dropped call fulfills with undefined): a `submit()` call dropped by
the single-flight guard settles with no value at all — modelled as `outcome = none`,
the fulfilled-with-`undefined` promise of an `async` function that returns early —
and never with a rejection (`some (.error _)`) nor a response (`some (.ok _)`);
conversely every accepted call settles with some value. The dropped call mutates no
state and performs no invocation. -/
theorem dropped_submit_fulfills_undefined (op : π → Nat → Except JsError α) (m : Nat)
    (p : π) (s : HookState α) :
    ((submit op m p s).outcome = none ↔ s.inFlight = true) ∧
      (s.inFlight = true →
        (submit op m p s).fin = s ∧ (submit op m p s).args = []) := by
  by_cases h : s.inFlight = true
  · rw [submit, if_pos h]
    exact ⟨by simp [h], fun _ => ⟨rfl, rfl⟩⟩
  · rw [submit, if_neg h]
    constructor
    · constructor
      · intro hnone
        rw [acceptedOut_outcome] at hnone
        cases hnone
      · intro hh
        exact absurd hh h
    · intro hh
      exact absurd hh h

/-- Witness for `dropped_submit_fulfills_undefined`: a duplicate call during a retry
window settles with no value. -/
theorem dropped_submit_fulfills_undefined_witness :
    ({ inFlight := true, status := .RETRYING, retryCount := 1, error := none,
       result := none } : HookState Nat).inFlight = true ∧
      (submit (fun (_ : Nat) _ => Except.ok 1) 3 0
        ({ inFlight := true, status := .RETRYING, retryCount := 1, error := none,
           result := none } : HookState Nat)).outcome = none :=
  ⟨rfl, (dropped_submit_fulfills_undefined (fun (_ : Nat) _ => Except.ok 1) 3 0
    { inFlight := true, status := .RETRYING, retryCount := 1, error := none,
      result := none }).1.mpr rfl⟩

end FormSubmission
